import Mathlib

/-!
# Verification of the rulechef coordination core

Shallow embedding of `rulechef` (span evaluation in `evaluation.py`, the
example buffer in `buffer.py`, and the heuristic coordinator in
`coordinator.py`), with theorems checking the natural-language
specification against the code.

Python numeric conventions used throughout: `int` is modelled by `ℤ` (or
`ℕ` where the source value is a count), `float` results of exact integer
divisions by `ℚ`.
-/

namespace Rulechef

/-! ## Span evaluation (`evaluation.py`) -/

/-- A span record `{text, start, end}` (the dataclass `Span` /
the literal dicts used by `evaluate_spans`). The source field named
`end` is a Lean keyword, hence the guillemets. -/
structure Span where
  text : String
  start : ℤ
  «end» : ℤ
deriving DecidableEq, Repr

instance : Inhabited Span := ⟨⟨"", 0, 0⟩⟩

/-- Function `span_iou(span1, span2)`: intersection-over-union of the two intervals,
`0.0` when the union is `0`. -/
def span_iou (span1 span2 : Span) : ℚ :=
  let inter_start := max span1.start span2.start
  let inter_end := min span1.«end» span2.«end»
  let intersection := max 0 (inter_end - inter_start)
  let union := (span1.«end» - span1.start) + (span2.«end» - span2.start) - intersection
  if union = 0 then 0 else (intersection : ℚ) / (union : ℚ)

/-- Function `boundary_distance(pred_span, gold_span)`:
`(|Δstart| + |Δend|) // 2` (Python floor division of non-negative ints). -/
def boundary_distance (pred_span gold_span : Span) : ℕ :=
  ((pred_span.start - gold_span.start).natAbs
    + (pred_span.«end» - gold_span.«end»).natAbs) / 2

/-- The scan loop of `find_best_match`: walks the gold list carrying the
running `(best_idx, best_iou)` pair (started at `(-1, 0.0)`), updating on a
strict `iou > best_iou` comparison; `idx` is the enumeration counter. -/
def find_best_aux (pred_span : Span) : List Span → ℤ → ℤ × ℚ → ℤ × ℚ
  | [], _, best => best
  | gold_span :: rest, idx, best =>
      let iou := span_iou pred_span gold_span
      if best.2 < iou then find_best_aux pred_span rest (idx + 1) (idx, iou)
      else find_best_aux pred_span rest (idx + 1) best

/-- Function `find_best_match(pred_span, gold_spans, iou_threshold)`: returns the
scanned best pair when `best_iou >= iou_threshold`, else `(-1, 0.0)`. -/
def find_best_match (pred_span : Span) (gold_spans : List Span)
    (iou_threshold : ℚ := 1/2) : ℤ × ℚ :=
  let best := find_best_aux pred_span gold_spans 0 (-1, 0)
  if iou_threshold ≤ best.2 then best else (-1, 0)

/-- A boundary-error entry `{predicted, gold, distance, iou}` appended by
the partial-match branch of `evaluate_spans`. -/
structure BoundaryError where
  predicted : Span
  gold : Span
  distance : ℕ
  iou : ℚ
deriving DecidableEq, Repr

/-- The mutable state threaded through the prediction loop of
`evaluate_spans`: the consumed gold indices (`matched_gold`, a Python set
of ints) and the accumulated counts and boundary errors. -/
structure EvalState where
  matched_gold : Finset ℤ
  exact_matches : ℕ
  partial_matches : ℕ
  boundary_errors : List BoundaryError
deriving DecidableEq

/-- The inner exact-match scan of `evaluate_spans`: first gold index not in
`matched_gold` whose text, start and end all equal the prediction's
(`continue` on consumed indices, `break` on success). `idx` is the
enumeration counter. -/
def find_exact_aux (pred : Span) : List Span → ℤ → Finset ℤ → Option ℤ
  | [], _, _ => none
  | gold :: rest, idx, matched =>
      if idx ∈ matched then find_exact_aux pred rest (idx + 1) matched
      else if pred.text = gold.text ∧ pred.start = gold.start
          ∧ pred.«end» = gold.«end» then some idx
      else find_exact_aux pred rest (idx + 1) matched

/-- One iteration of the `for pred in predictions` loop of
`evaluate_spans`: try the exact-match scan; otherwise, unless
`exact_match_only`, run `find_best_match` over the full gold list and
accept only when the returned index is not `-1` and not yet consumed. -/
def evalStep (gold_standard : List Span) (exact_match_only : Bool)
    (iou_threshold : ℚ) (s : EvalState) (pred : Span) : EvalState :=
  match find_exact_aux pred gold_standard 0 s.matched_gold with
  | some gold_idx =>
      { s with
        exact_matches := s.exact_matches + 1
        matched_gold := insert gold_idx s.matched_gold }
  | none =>
      if exact_match_only then s
      else
        let best := find_best_match pred gold_standard iou_threshold
        if best.1 ≠ -1 ∧ best.1 ∉ s.matched_gold then
          let gold := gold_standard.getD best.1.toNat default
          { matched_gold := insert best.1 s.matched_gold
            exact_matches := s.exact_matches
            partial_matches := s.partial_matches + 1
            boundary_errors := s.boundary_errors
              ++ [⟨pred, gold, boundary_distance pred gold, best.2⟩] }
        else s

/-- The metrics record returned by `evaluate_spans`. The early return for
an empty gold list omits the `true_positives` key in the source dict; here
that field is `0` in that case (no claim depends on it). `false_positives`
and `false_negatives` are Python int subtractions, hence `ℤ`. -/
structure EvalResult where
  exact_matches : ℕ
  partial_matches : ℕ
  true_positives : ℕ
  false_positives : ℤ
  false_negatives : ℤ
  precision : ℚ
  «recall» : ℚ
  f1 : ℚ
  accuracy_exact : ℚ
  accuracy_partial : ℚ
  boundary_errors : List BoundaryError
deriving DecidableEq

/-- Function `evaluate_spans(predictions, gold_standard, exact_match_only,
iou_threshold)` from `evaluation.py`. -/
def evaluate_spans (predictions gold_standard : List Span)
    (exact_match_only : Bool := false) (iou_threshold : ℚ := 1/2) :
    EvalResult :=
  if gold_standard.isEmpty then
    { exact_matches := 0
      partial_matches := 0
      true_positives := 0
      false_positives := (predictions.length : ℤ)
      false_negatives := 0
      precision := 0
      «recall» := 0
      f1 := 0
      accuracy_exact := 0
      accuracy_partial := 0
      boundary_errors := [] }
  else
    let s := predictions.foldl
      (evalStep gold_standard exact_match_only iou_threshold)
      ⟨∅, 0, 0, []⟩
    let true_positives := s.exact_matches + s.partial_matches
    let false_positives : ℤ := (predictions.length : ℤ) - true_positives
    let false_negatives : ℤ := (gold_standard.length : ℤ) - s.matched_gold.card
    let precision : ℚ :=
      if 0 < (true_positives : ℚ) + (false_positives : ℚ) then
        (true_positives : ℚ) / ((true_positives : ℚ) + (false_positives : ℚ))
      else 0
    let «recall» : ℚ :=
      if 0 < (true_positives : ℚ) + (false_negatives : ℚ) then
        (true_positives : ℚ) / ((true_positives : ℚ) + (false_negatives : ℚ))
      else 0
    let f1 : ℚ :=
      if 0 < precision + «recall» then
        2 * (precision * «recall») / (precision + «recall»)
      else 0
    { exact_matches := s.exact_matches
      partial_matches := s.partial_matches
      true_positives := true_positives
      false_positives := false_positives
      false_negatives := false_negatives
      precision := precision
      «recall» := «recall»
      f1 := f1
      accuracy_exact :=
        if gold_standard.isEmpty then 0
        else (s.exact_matches : ℚ) / (gold_standard.length : ℚ)
      accuracy_partial :=
        if gold_standard.isEmpty then 0
        else (true_positives : ℚ) / (gold_standard.length : ℚ)
      boundary_errors := s.boundary_errors }

/-! ## Example buffer (`buffer.py`)

Every public operation of the Python class runs inside `self.lock`, so the
class is a monitor: its observable behaviour is the sequential state
machine embedded below (one state per completed critical section).
Timestamps (`time.time()` defaults) carry no logic and are omitted. The
`input`, `output` and `metadata` payload dictionaries are opaque to all
buffer logic, so they are abstracted by a type parameter `Data`. -/

/-- The `source` field of `ObservedExample`: `"llm" | "human"`. -/
inductive Source where
  | llm
  | human
deriving DecidableEq, Repr

/-- The `output` field: a plain result dict, or — for corrections — a dict
bundling `expected` and `actual` sub-results. -/
inductive OutputData (Data : Type) where
  | plain (d : Data)
  | correction (expected actual : Data)
deriving DecidableEq

/-- The dataclass `ObservedExample` (timestamp omitted; `metadata` is
`none` when the caller passed nothing). -/
structure ObservedExample (Data : Type) where
  input : Data
  output : OutputData Data
  source : Source
  is_correction : Bool
  metadata : Option Data
deriving DecidableEq

/-- The state of an `ExampleBuffer`: the example list and the
`last_learn_index` cursor (the `threading.Lock` has no sequential
content). -/
structure ExampleBuffer (Data : Type) where
  examples : List (ObservedExample Data)
  last_learn_index : ℕ
deriving DecidableEq

/-- Constructor `ExampleBuffer.__init__`: empty list, cursor `0`. -/
def initBuffer {Data : Type} : ExampleBuffer Data := ⟨[], 0⟩

/-- Method `add_llm_observation(input_data, output_data, metadata)`: appends a
non-correction llm-sourced example. -/
def add_llm_observation {Data : Type} (b : ExampleBuffer Data)
    (input_data output_data : Data) (metadata : Option Data) :
    ExampleBuffer Data :=
  { b with examples := b.examples
      ++ [⟨input_data, .plain output_data, .llm, false, metadata⟩] }

/-- Method `add_human_example(input_data, output_data)`: appends a non-correction
human-sourced example. -/
def add_human_example {Data : Type} (b : ExampleBuffer Data)
    (input_data output_data : Data) : ExampleBuffer Data :=
  { b with examples := b.examples
      ++ [⟨input_data, .plain output_data, .human, false, none⟩] }

/-- Method `add_human_correction(input_data, expected_output, actual_output)`:
appends a correction whose output bundles expected and actual. -/
def add_human_correction {Data : Type} (b : ExampleBuffer Data)
    (input_data expected_output actual_output : Data) :
    ExampleBuffer Data :=
  { b with examples := b.examples
      ++ [⟨input_data, .correction expected_output actual_output,
            .human, true, none⟩] }

/-- Method `get_all_examples()` (the `.copy()` only matters for aliasing, which
the functional embedding has none of). -/
def get_all_examples {Data : Type} (b : ExampleBuffer Data) :
    List (ObservedExample Data) :=
  b.examples

/-- Method `get_new_examples()`: the slice `examples[last_learn_index:]`. -/
def get_new_examples {Data : Type} (b : ExampleBuffer Data) :
    List (ObservedExample Data) :=
  b.examples.drop b.last_learn_index

/-- Method `get_new_corrections()`: the new examples with `is_correction`. -/
def get_new_corrections {Data : Type} (b : ExampleBuffer Data) :
    List (ObservedExample Data) :=
  (get_new_examples b).filter (·.is_correction)

/-- Method `mark_learned()`: sets `last_learn_index = len(self.examples)`. -/
def mark_learned {Data : Type} (b : ExampleBuffer Data) :
    ExampleBuffer Data :=
  { b with last_learn_index := b.examples.length }

/-- The dict returned by `get_stats()`. -/
structure BufferStats where
  total_examples : ℕ
  new_examples : ℕ
  new_corrections : ℕ
  llm_observations : ℕ
  human_examples : ℕ
deriving DecidableEq, Repr

/-- Method `get_stats()` as written in the source: note that the
`llm_observations` count filters on `source == "llm"` only, with no
`is_correction` check. -/
def get_stats {Data : Type} (b : ExampleBuffer Data) : BufferStats :=
  let new_examples := b.examples.drop b.last_learn_index
  { total_examples := b.examples.length
    new_examples := new_examples.length
    new_corrections := (new_examples.filter (·.is_correction)).length
    llm_observations :=
      (new_examples.filter (fun e => e.source = Source.llm)).length
    human_examples :=
      (new_examples.filter
        (fun e => e.source = Source.human ∧ e.is_correction = false)).length }

/-- Method `clear()`: empties the list and resets the cursor to `0`. -/
def clear {Data : Type} (_b : ExampleBuffer Data) : ExampleBuffer Data :=
  ⟨[], 0⟩

/-- The state-changing operations of the buffer API (the `get_*` queries
are pure and do not change the state, so an "interleaving" of API calls
is, up to its observable effect, a list of these operations). -/
inductive BufferOp (Data : Type) where
  | addLlmObservation (input_data output_data : Data)
      (metadata : Option Data)
  | addHumanExample (input_data output_data : Data)
  | addHumanCorrection (input_data expected_output actual_output : Data)
  | markLearned
  | clearOp
deriving DecidableEq

/-- Apply one buffer operation. -/
def applyOp {Data : Type} (b : ExampleBuffer Data) :
    BufferOp Data → ExampleBuffer Data
  | .addLlmObservation i o m => add_llm_observation b i o m
  | .addHumanExample i o => add_human_example b i o
  | .addHumanCorrection i e a => add_human_correction b i e a
  | .markLearned => mark_learned b
  | .clearOp => clear b

/-- Run a sequence of buffer operations from a starting state. -/
def runOps {Data : Type} (b : ExampleBuffer Data)
    (ops : List (BufferOp Data)) : ExampleBuffer Data :=
  ops.foldl applyOp b

/-! ## Coordinator (`coordinator.py`) -/

/-- The dataclass `CoordinationDecision`. The `metadata` dict built by
`SimpleCoordinator` holds the stats snapshot and the two thresholds. -/
structure CoordinationDecision where
  should_learn : Bool
  strategy : String
  reasoning : String
  max_iterations : ℕ
  buffer_stats : BufferStats
  trigger_threshold : ℕ
  correction_threshold : ℕ
deriving DecidableEq

/-- Constructor `SimpleCoordinator.__init__` configuration (the `verbose` flag only
gates printing and carries no decision logic). -/
structure SimpleCoordinator where
  trigger_threshold : ℕ
  correction_threshold : ℕ
  verbose : Bool
deriving DecidableEq

/-- Method `SimpleCoordinator.should_trigger_learning(buffer, current_rules)`.
`Rule` (defined in `rulechef/core.py`, outside this core) is abstract: the
code only tests `current_rules is None`. -/
def should_trigger_learning {Data Rule : Type} (c : SimpleCoordinator)
    (buffer : ExampleBuffer Data) (current_rules : Option (List Rule)) :
    CoordinationDecision :=
  let stats := get_stats buffer
  let new_examples_count := stats.new_examples
  let corrections_count := stats.new_corrections
  match current_rules with
  | none =>
      { should_learn := decide (c.trigger_threshold ≤ new_examples_count)
        strategy := "balanced"
        reasoning := "First learn: " ++ toString new_examples_count ++ "/"
          ++ toString c.trigger_threshold ++ " examples"
        max_iterations := 3
        buffer_stats := stats
        trigger_threshold := c.trigger_threshold
        correction_threshold := c.correction_threshold }
  | some _ =>
      let should_learn :=
        decide (c.trigger_threshold ≤ new_examples_count)
          || decide (c.correction_threshold ≤ corrections_count)
      if c.correction_threshold ≤ corrections_count then
        { should_learn := should_learn
          strategy := "corrections_first"
          reasoning := "Corrections accumulated: "
            ++ toString corrections_count ++ "/"
            ++ toString c.correction_threshold
          max_iterations := 2
          buffer_stats := stats
          trigger_threshold := c.trigger_threshold
          correction_threshold := c.correction_threshold }
      else if c.trigger_threshold ≤ new_examples_count then
        { should_learn := should_learn
          strategy := "diversity"
          reasoning := "Examples accumulated: "
            ++ toString new_examples_count ++ "/"
            ++ toString c.trigger_threshold
          max_iterations := 3
          buffer_stats := stats
          trigger_threshold := c.trigger_threshold
          correction_threshold := c.correction_threshold }
      else
        { should_learn := should_learn
          strategy := "balanced"
          reasoning := "Not ready: " ++ toString new_examples_count ++ "/"
            ++ toString c.trigger_threshold ++ " examples, "
            ++ toString corrections_count ++ "/"
            ++ toString c.correction_threshold ++ " corrections"
          max_iterations := 3
          buffer_stats := stats
          trigger_threshold := c.trigger_threshold
          correction_threshold := c.correction_threshold }

/-! ## Auxiliary definitions used by the theorems -/

/-- The statistics record as the specification describes it: every count
over the new slice, with `llm_observations` filtering on
*source = llm AND not a correction* (the source code omits the correction
check there). Written from the spec's words, to be compared with
`get_stats`. -/
def get_stats_claim {Data : Type} (b : ExampleBuffer Data) : BufferStats :=
  let new_examples := b.examples.drop b.last_learn_index
  { total_examples := b.examples.length
    new_examples := new_examples.length
    new_corrections := (new_examples.filter (·.is_correction)).length
    llm_observations :=
      (new_examples.filter
        (fun e => e.source = Source.llm ∧ e.is_correction = false)).length
    human_examples :=
      (new_examples.filter
        (fun e => e.source = Source.human ∧ e.is_correction = false)).length }

/-- The three `add_*` operations of the buffer, for statements quantifying
over add-only call sequences. -/
inductive AddCall (Data : Type) where
  | llmObservation (input_data output_data : Data) (metadata : Option Data)
  | humanExample (input_data output_data : Data)
  | humanCorrection (input_data expected_output actual_output : Data)
deriving DecidableEq

/-- View an add call as a buffer operation. -/
def AddCall.toOp {Data : Type} : AddCall Data → BufferOp Data
  | .llmObservation i o m => .addLlmObservation i o m
  | .humanExample i o => .addHumanExample i o
  | .humanCorrection i e a => .addHumanCorrection i e a

/-- Loop invariant of the prediction loop of `evaluate_spans` after `n`
predictions: the match counts sum to the number of consumed gold indices,
every consumed index is a valid gold position, and at most one match is
counted per prediction. -/
def EvalInv (golds : List Span) (n : ℕ) (s : EvalState) : Prop :=
  s.exact_matches + s.partial_matches = s.matched_gold.card
  ∧ (∀ i ∈ s.matched_gold, 0 ≤ i ∧ i < (golds.length : ℤ))
  ∧ s.exact_matches + s.partial_matches ≤ n

/-! ## Buffer lemmas -/

/-- Each buffer operation preserves `last_learn_index ≤ length examples`. -/
lemma applyOp_cursor_le {Data : Type} (b : ExampleBuffer Data)
    (op : BufferOp Data) (h : b.last_learn_index ≤ b.examples.length) :
    (applyOp b op).last_learn_index ≤ (applyOp b op).examples.length := by
  cases op <;>
    simp [applyOp, add_llm_observation, add_human_example,
      add_human_correction, mark_learned, clear] <;>
    omega

/-- The cursor bound holds along any run of buffer operations. -/
lemma runOps_cursor_le {Data : Type} :
    ∀ (ops : List (BufferOp Data)) (b : ExampleBuffer Data),
      b.last_learn_index ≤ b.examples.length →
      (runOps b ops).last_learn_index ≤ (runOps b ops).examples.length := by
  intro ops
  induction ops with
  | nil => intro b h; exact h
  | cons op rest ih =>
      intro b h
      simpa [runOps] using ih (applyOp b op) (applyOp_cursor_le b op h)

/-- Reachable buffers contain no llm-sourced correction: each `add_*`
operation appends either an llm example with `is_correction = False` or a
human-sourced one. -/
lemma runOps_llm_no_correction {Data : Type} :
    ∀ (ops : List (BufferOp Data)) (b : ExampleBuffer Data),
      (∀ e ∈ b.examples, e.source = Source.llm → e.is_correction = false) →
      ∀ e ∈ (runOps b ops).examples,
        e.source = Source.llm → e.is_correction = false := by
  intro ops
  induction ops with
  | nil => intro b h; exact h
  | cons op rest ih =>
      intro b h
      have hstep : ∀ e ∈ (applyOp b op).examples,
          e.source = Source.llm → e.is_correction = false := by
        cases op with
        | addLlmObservation i o m =>
            intro e he
            rcases List.mem_append.mp he with h1 | h1
            · exact h e h1
            · intro _; simp_all
        | addHumanExample i o =>
            intro e he
            rcases List.mem_append.mp he with h1 | h1
            · exact h e h1
            · intro hs; simp_all
        | addHumanCorrection i x y =>
            intro e he
            rcases List.mem_append.mp he with h1 | h1
            · exact h e h1
            · intro hs; simp_all
        | markLearned => exact h
        | clearOp => intro e he; simp [applyOp, clear] at he
      simpa [runOps] using ih (applyOp b op) hstep

/-- Appending `n` add calls grows the example list by exactly `n`. -/
lemma runOps_adds_length {Data : Type} :
    ∀ (adds : List (AddCall Data)) (b : ExampleBuffer Data),
      (runOps b (adds.map AddCall.toOp)).examples.length =
        b.examples.length + adds.length := by
  intro adds
  induction adds with
  | nil => intro b; simp [runOps]
  | cons a rest ih =>
      intro b
      have h1 := ih (applyOp b a.toOp)
      have hlen : (applyOp b a.toOp).examples.length =
          b.examples.length + 1 := by
        cases a <;>
          simp [AddCall.toOp, applyOp, add_llm_observation,
            add_human_example, add_human_correction]
      simp only [List.map_cons, runOps, List.foldl_cons, List.length_cons]
        at h1 ⊢
      omega

/-! ## C2 — cursor invariant and (non-)monotonicity -/

/-- C2 (counterexample): in the interleaving
`add_llm_observation; mark_learned; clear`, the cursor moves from `1` back
to `0` across the `clear` step, so `last_learn_index` is not
non-decreasing over reachable-state runs that include `clear`. -/
theorem buffer_cursor_monotone_cex :
    (runOps (initBuffer : ExampleBuffer Unit)
      [.addLlmObservation () () none, .markLearned]).last_learn_index = 1
    ∧ (runOps (initBuffer : ExampleBuffer Unit)
        [.addLlmObservation () () none, .markLearned,
         .clearOp]).last_learn_index = 0 := by
  constructor <;> rfl

/-- C2 (amended): on every reachable state
`0 ≤ last_learn_index ≤ length examples`; every operation except `clear`
leaves the cursor non-decreasing; `mark_learned` sets it to the current
length; `clear` resets it to `0` (and may therefore decrease it); each of
the three `add_*` operations leaves it unchanged — so the cursor is
advanced only by `mark_learned`. -/
theorem buffer_cursor_invariant :
    (∀ (Data : Type) (ops : List (BufferOp Data)),
      (runOps initBuffer ops).last_learn_index ≤
        (runOps initBuffer ops).examples.length)
    ∧ (∀ (Data : Type) (b : ExampleBuffer Data) (op : BufferOp Data),
        b.last_learn_index ≤ b.examples.length → op ≠ .clearOp →
        b.last_learn_index ≤ (applyOp b op).last_learn_index)
    ∧ (∀ (Data : Type) (b : ExampleBuffer Data),
        (mark_learned b).last_learn_index = b.examples.length)
    ∧ (∀ (Data : Type) (b : ExampleBuffer Data),
        (clear b).last_learn_index = 0)
    ∧ (∀ (Data : Type) (b : ExampleBuffer Data) (a : AddCall Data),
        (applyOp b a.toOp).last_learn_index = b.last_learn_index) := by
  refine ⟨?_, ?_, ?_, ?_, ?_⟩
  · intro Data ops
    exact runOps_cursor_le ops initBuffer (by simp [initBuffer])
  · intro Data b op hinv hne
    cases op <;>
      simp_all [applyOp, add_llm_observation, add_human_example,
        add_human_correction, mark_learned]
  · intro Data b; rfl
  · intro Data b; rfl
  · intro Data b a
    cases a <;> rfl

/-- Witness for C2 (amended): the non-`clear` monotonicity conjunct at a
concrete buffer and operation. -/
theorem buffer_cursor_invariant_witness :
    (⟨[], 0⟩ : ExampleBuffer Unit).last_learn_index ≤
      (⟨[], 0⟩ : ExampleBuffer Unit).examples.length
    ∧ (BufferOp.markLearned : BufferOp Unit) ≠ .clearOp
    ∧ (⟨[], 0⟩ : ExampleBuffer Unit).last_learn_index ≤
        (applyOp (⟨[], 0⟩ : ExampleBuffer Unit)
          BufferOp.markLearned).last_learn_index :=
  ⟨by decide, by decide,
    buffer_cursor_invariant.2.1 Unit ⟨[], 0⟩ .markLearned (by decide)
      (by decide)⟩

/-! ## C3 — `get_stats` agrees with the spec's description -/

/-- C3: on every reachable buffer state, `get_stats` returns exactly the
record the spec describes — in particular its `llm_observations` count
(source = llm, no correction check in the code) coincides with the
claim's "source = llm AND not a correction", because reachable states
contain no llm-sourced corrections. -/
theorem get_stats_matches_claim :
    ∀ (Data : Type) (ops : List (BufferOp Data)),
      get_stats (runOps initBuffer ops) =
        get_stats_claim (runOps initBuffer ops) := by
  intro Data ops
  have hinv := runOps_llm_no_correction ops initBuffer (by simp [initBuffer])
  simp only [get_stats, get_stats_claim, BufferStats.mk.injEq]
  refine ⟨trivial, trivial, trivial, ?_, trivial⟩
  refine congrArg List.length (List.filter_congr ?_)
  intro e he
  have hm : e ∈ (runOps initBuffer ops).examples := List.mem_of_mem_drop he
  by_cases hs : e.source = Source.llm
  · simp [hs, hinv e hm hs]
  · simp [hs]

/-! ## C8 — add counts and the effect of `mark_learned` -/

/-- C8: after any sequence of `add_*` calls on a fresh buffer,
`total_examples` equals the number of add calls; and immediately after
`mark_learned()`, `get_new_examples()` is empty and
`get_stats().new_examples` is `0`. -/
theorem buffer_add_count_and_mark_learned :
    (∀ (Data : Type) (adds : List (AddCall Data)),
      (get_stats (runOps initBuffer (adds.map AddCall.toOp))).total_examples
        = adds.length)
    ∧ (∀ (Data : Type) (b : ExampleBuffer Data),
        get_new_examples (mark_learned b) = []
        ∧ (get_stats (mark_learned b)).new_examples = 0) := by
  constructor
  · intro Data adds
    simp only [get_stats]
    rw [runOps_adds_length adds initBuffer]
    simp [initBuffer]
  · intro Data b
    constructor
    · simp [get_new_examples, mark_learned]
    · simp [get_stats, mark_learned]

/-! ## C9 — idempotence of `mark_learned` -/

/-- C9: calling `mark_learned` twice in a row is idempotent — the second
call leaves the whole buffer state (hence every later query) unchanged. -/
theorem mark_learned_idempotent :
    ∀ (Data : Type) (b : ExampleBuffer Data),
      mark_learned (mark_learned b) = mark_learned b :=
  fun _ _ => rfl

/-! ## C4 — corrections take priority on subsequent learns -/

/-- C4: with `current_rules` present, whenever the new-corrections count
reaches `correction_threshold` the decision is `should_learn = true`,
strategy `"corrections_first"`, `max_iterations = 2` — even when the
example count also reaches `trigger_threshold`; in particular the
3-observations-plus-2-corrections scenario with thresholds `(5, 2)`. -/
theorem corrections_take_priority :
    (∀ (Data Rule : Type) (c : SimpleCoordinator) (b : ExampleBuffer Data)
        (rules : List Rule),
      c.correction_threshold ≤ (get_stats b).new_corrections →
      (should_trigger_learning c b (some rules)).should_learn = true
      ∧ (should_trigger_learning c b (some rules)).strategy
          = "corrections_first"
      ∧ (should_trigger_learning c b (some rules)).max_iterations = 2)
    ∧ (get_stats (runOps (initBuffer : ExampleBuffer Unit)
        [.addHumanExample () (), .markLearned,
         .addLlmObservation () () none, .addLlmObservation () () none,
         .addLlmObservation () () none,
         .addHumanCorrection () () (),
         .addHumanCorrection () () ()])).new_examples = 5
    ∧ (get_stats (runOps (initBuffer : ExampleBuffer Unit)
        [.addHumanExample () (), .markLearned,
         .addLlmObservation () () none, .addLlmObservation () () none,
         .addLlmObservation () () none,
         .addHumanCorrection () () (),
         .addHumanCorrection () () ()])).new_corrections = 2
    ∧ (@should_trigger_learning Unit Unit ⟨5, 2, true⟩
        (runOps initBuffer
          [.addHumanExample () (), .markLearned,
           .addLlmObservation () () none, .addLlmObservation () () none,
           .addLlmObservation () () none,
           .addHumanCorrection () () (),
           .addHumanCorrection () () ()]) (some [()])).should_learn = true
    ∧ (@should_trigger_learning Unit Unit ⟨5, 2, true⟩
        (runOps initBuffer
          [.addHumanExample () (), .markLearned,
           .addLlmObservation () () none, .addLlmObservation () () none,
           .addLlmObservation () () none,
           .addHumanCorrection () () (),
           .addHumanCorrection () () ()]) (some [()])).strategy
        = "corrections_first"
    ∧ (@should_trigger_learning Unit Unit ⟨5, 2, true⟩
        (runOps initBuffer
          [.addHumanExample () (), .markLearned,
           .addLlmObservation () () none, .addLlmObservation () () none,
           .addLlmObservation () () none,
           .addHumanCorrection () () (),
           .addHumanCorrection () () ()]) (some [()])).max_iterations
        = 2 := by
  refine ⟨?_, by decide, by decide, by decide, by decide, by decide⟩
  intro Data Rule c b rules h
  simp [should_trigger_learning, h]

/-- Witness for C4: the general conjunct applied at the scenario buffer,
thresholds `(5, 2)`, discharging `2 ≤ new_corrections` concretely. -/
theorem corrections_take_priority_witness :
    (2 ≤ (get_stats (runOps (initBuffer : ExampleBuffer Unit)
        [.addHumanExample () (), .markLearned,
         .addLlmObservation () () none, .addLlmObservation () () none,
         .addLlmObservation () () none,
         .addHumanCorrection () () (),
         .addHumanCorrection () () ()])).new_corrections)
    ∧ (@should_trigger_learning Unit Unit ⟨5, 2, true⟩
        (runOps initBuffer
          [.addHumanExample () (), .markLearned,
           .addLlmObservation () () none, .addLlmObservation () () none,
           .addLlmObservation () () none,
           .addHumanCorrection () () (),
           .addHumanCorrection () () ()]) (some [()])).should_learn
        = true :=
  ⟨by decide,
    (corrections_take_priority.1 Unit Unit ⟨5, 2, true⟩
      (runOps initBuffer
        [.addHumanExample () (), .markLearned,
         .addLlmObservation () () none, .addLlmObservation () () none,
         .addLlmObservation () () none,
         .addHumanCorrection () () (),
         .addHumanCorrection () () ()]) [()] (by decide)).1⟩

/-! ## C6 — first-learn decision -/

/-- C6: with `current_rules` absent, `should_learn` holds exactly when the
new-examples count reaches `trigger_threshold`, with strategy
`"balanced"` and `max_iterations = 3`; in particular with threshold `10`,
nine new examples refuse and a tenth triggers. -/
theorem first_learn_decision :
    (∀ (Data Rule : Type) (c : SimpleCoordinator) (b : ExampleBuffer Data),
      ((@should_trigger_learning Data Rule c b none).should_learn = true
        ↔ c.trigger_threshold ≤ (get_stats b).new_examples)
      ∧ (@should_trigger_learning Data Rule c b none).strategy
          = "balanced"
      ∧ (@should_trigger_learning Data Rule c b none).max_iterations
          = 3)
    ∧ (@should_trigger_learning Unit Unit ⟨10, 10, true⟩
        (runOps initBuffer
          (List.replicate 9 (.addLlmObservation () () none)))
        none).should_learn = false
    ∧ (@should_trigger_learning Unit Unit ⟨10, 10, true⟩
        (runOps
          (runOps (initBuffer : ExampleBuffer Unit)
            (List.replicate 9 (.addLlmObservation () () none)))
          [.addLlmObservation () () none]) none).should_learn = true
    ∧ (@should_trigger_learning Unit Unit ⟨10, 10, true⟩
        (runOps
          (runOps (initBuffer : ExampleBuffer Unit)
            (List.replicate 9 (.addLlmObservation () () none)))
          [.addLlmObservation () () none]) none).strategy = "balanced"
    ∧ (@should_trigger_learning Unit Unit ⟨10, 10, true⟩
        (runOps
          (runOps (initBuffer : ExampleBuffer Unit)
            (List.replicate 9 (.addLlmObservation () () none)))
          [.addLlmObservation () () none]) none).max_iterations = 3 := by
  refine ⟨?_, by decide, by decide, by decide, by decide⟩
  intro Data Rule c b
  refine ⟨?_, rfl, rfl⟩
  simp [should_trigger_learning]

/-! ## C7 — empty gold list -/

/-- C7: with an empty gold list, `evaluate_spans` returns early with every
prediction a false positive, all other counts and all rates `0`, and no
boundary errors; in particular `evaluate_spans([p1], [])`. -/
theorem empty_gold_all_false_positives :
    (∀ (predictions : List Span) (eo : Bool) (t : ℚ),
      evaluate_spans predictions [] eo t =
        { exact_matches := 0
          partial_matches := 0
          true_positives := 0
          false_positives := (predictions.length : ℤ)
          false_negatives := 0
          precision := 0
          «recall» := 0
          f1 := 0
          accuracy_exact := 0
          accuracy_partial := 0
          boundary_errors := [] })
    ∧ (evaluate_spans [⟨"a", 0, 3⟩] [] false (1/2)).false_positives = 1
    ∧ (evaluate_spans [⟨"a", 0, 3⟩] [] false (1/2)).precision = 0
    ∧ (evaluate_spans [⟨"a", 0, 3⟩] [] false (1/2)).«recall» = 0
    ∧ (evaluate_spans [⟨"a", 0, 3⟩] [] false (1/2)).f1 = 0 := by
  exact ⟨fun preds eo t => by simp [evaluate_spans], rfl, rfl, rfl, rfl⟩

/-! ## Span-IoU and best-match lemmas -/

/-- Lemma: `span_iou` never returns a negative value (also for malformed spans:
a positive intersection forces a positive union, and a zero intersection
gives a zero quotient). -/
lemma span_iou_nonneg (s1 s2 : Span) : 0 ≤ span_iou s1 s2 := by
  simp only [span_iou]
  split_ifs with h
  · exact le_rfl
  · rcases le_or_lt (min s1.«end» s2.«end» - max s1.start s2.start) 0
      with hle | hpos
    · rw [max_eq_left hle]
      simp
    · rw [max_eq_right hpos.le] at *
      apply div_nonneg
      · exact_mod_cast hpos.le
      · have h1 : min s1.«end» s2.«end» ≤ s1.«end» := min_le_left _ _
        have h2 : min s1.«end» s2.«end» ≤ s2.«end» := min_le_right _ _
        have h3 : s1.start ≤ max s1.start s2.start := le_max_left _ _
        have h4 : s2.start ≤ max s1.start s2.start := le_max_right _ _
        have h5 : (0 : ℤ) ≤ (s1.«end» - s1.start) + (s2.«end» - s2.start)
            - (min s1.«end» s2.«end» - max s1.start s2.start) := by omega
        exact_mod_cast h5

/-- Every element is bounded by the zero-seeded `foldr max`. -/
lemma le_foldr_max (l : List ℚ) : ∀ x ∈ l, x ≤ l.foldr max 0 := by
  induction l with
  | nil => simp
  | cons a t ih =>
      intro x hx
      rcases List.mem_cons.mp hx with rfl | hx
      · exact le_max_left _ _
      · exact le_trans (ih x hx) (le_max_right _ _)

/-- The zero-seeded `foldr max` is non-negative. -/
lemma foldr_max_nonneg (l : List ℚ) : 0 ≤ l.foldr max 0 := by
  induction l with
  | nil => exact le_rfl
  | cons a t ih => exact le_trans ih (le_max_right _ _)

/-- The zero-seeded `foldr max` is below any non-negative upper bound. -/
lemma foldr_max_le (l : List ℚ) (c : ℚ) (h0 : 0 ≤ c)
    (h : ∀ x ∈ l, x ≤ c) : l.foldr max 0 ≤ c := by
  induction l with
  | nil => simpa
  | cons a t ih =>
      simp only [List.foldr_cons]
      exact max_le (h a (by simp))
        (ih fun x hx => h x (List.mem_cons_of_mem _ hx))

/-- The zero-seeded `foldr max` equals any non-negative member that bounds
the whole list. -/
lemma foldr_max_eq_of (l : List ℚ) (x : ℚ) (hx : x ∈ l) (h0 : 0 ≤ x)
    (hub : ∀ y ∈ l, y ≤ x) : l.foldr max 0 = x :=
  le_antisymm (foldr_max_le l x h0 hub) (le_foldr_max l x hx)

/-- Complete characterisation of the `find_best_match` scan loop: either
no element strictly beats the incoming best (and the scan returns it
unchanged), or the scan returns the first index attaining the list's
maximum IoU, which strictly beats the incoming best and every earlier
element. -/
lemma find_best_aux_cases (pred : Span) :
    ∀ (gs : List Span) (k : ℤ) (b : ℤ × ℚ),
      (find_best_aux pred gs k b = b ∧ ∀ g ∈ gs, span_iou pred g ≤ b.2)
      ∨ (∃ j : ℕ, ∃ hj : j < gs.length,
          find_best_aux pred gs k b = (k + j, span_iou pred gs[j])
          ∧ b.2 < span_iou pred gs[j]
          ∧ (∀ g ∈ gs, span_iou pred g ≤ span_iou pred gs[j])
          ∧ (∀ i : ℕ, (hi : i < gs.length) → i < j →
              span_iou pred gs[i] < span_iou pred gs[j])) := by
  intro gs
  induction gs with
  | nil =>
      intro k b
      left
      exact ⟨rfl, by simp⟩
  | cons g rest ih =>
      intro k b
      by_cases h : b.2 < span_iou pred g
      · have heq : find_best_aux pred (g :: rest) k b
            = find_best_aux pred rest (k + 1) (k, span_iou pred g) := by
          simp [find_best_aux, h]
        rcases ih (k + 1) (k, span_iou pred g) with
          ⟨hr, hle⟩ | ⟨j, hj, hr, hlt, hub, hfst⟩
        · right
          refine ⟨0, Nat.succ_pos _, ?_, ?_, ?_, ?_⟩
          · rw [heq, hr]; simp
          · simpa using h
          · intro g' hg'
            rcases List.mem_cons.mp hg' with rfl | hm
            · simp
            · simpa using hle g' hm
          · intro i hi hlt0
            exact absurd hlt0 (Nat.not_lt_zero i)
        · right
          have hlt' : span_iou pred g < span_iou pred rest[j] := by
            simpa using hlt
          refine ⟨j + 1, Nat.succ_lt_succ hj, ?_, ?_, ?_, ?_⟩
          · rw [heq, hr]
            simp only [List.getElem_cons_succ]
            congr 1
            push_cast
            ring
          · simp only [List.getElem_cons_succ]
            exact lt_trans h hlt'
          · intro g' hg'
            simp only [List.getElem_cons_succ]
            rcases List.mem_cons.mp hg' with rfl | hm
            · exact le_of_lt hlt'
            · exact hub g' hm
          · intro i hi hlt1
            simp only [List.getElem_cons_succ]
            cases i with
            | zero =>
                simp only [List.getElem_cons_zero]
                exact hlt'
            | succ i' =>
                simp only [List.getElem_cons_succ]
                exact hfst i' (Nat.lt_of_succ_lt_succ hi)
                  (Nat.lt_of_succ_lt_succ hlt1)
      · have heq : find_best_aux pred (g :: rest) k b
            = find_best_aux pred rest (k + 1) b := by
          simp [find_best_aux, h]
        rcases ih (k + 1) b with
          ⟨hr, hle⟩ | ⟨j, hj, hr, hlt, hub, hfst⟩
        · left
          refine ⟨heq.trans hr, ?_⟩
          intro g' hg'
          rcases List.mem_cons.mp hg' with rfl | hm
          · exact le_of_not_lt h
          · exact hle g' hm
        · right
          refine ⟨j + 1, Nat.succ_lt_succ hj, ?_, ?_, ?_, ?_⟩
          · rw [heq, hr]
            simp only [List.getElem_cons_succ]
            congr 1
            push_cast
            ring
          · simp only [List.getElem_cons_succ]
            exact hlt
          · intro g' hg'
            simp only [List.getElem_cons_succ]
            rcases List.mem_cons.mp hg' with rfl | hm
            · exact le_trans (le_of_not_lt h) (le_of_lt hlt)
            · exact hub g' hm
          · intro i hi hlt1
            simp only [List.getElem_cons_succ]
            cases i with
            | zero =>
                simp only [List.getElem_cons_zero]
                exact lt_of_le_of_lt (le_of_not_lt h) hlt
            | succ i' =>
                simp only [List.getElem_cons_succ]
                exact hfst i' (Nat.lt_of_succ_lt_succ hi)
                  (Nat.lt_of_succ_lt_succ hlt1)

/-- The index returned by `find_best_match` is `-1` or a valid gold
position. -/
lemma find_best_match_range (pred : Span) (golds : List Span) (t : ℚ) :
    (find_best_match pred golds t).1 = -1
    ∨ (0 ≤ (find_best_match pred golds t).1
        ∧ (find_best_match pred golds t).1 < (golds.length : ℤ)) := by
  simp only [find_best_match]
  rcases find_best_aux_cases pred golds 0 (-1, 0) with
    ⟨hr, _⟩ | ⟨j, hj, hr, _, _, _⟩
  · rw [hr]
    split_ifs <;> simp
  · rw [hr]
    split_ifs with ht
    · right
      constructor <;> [simp; omega]
    · simp

/-- When the first-argmax hypotheses identify index `i`, `find_best_match`
returns exactly `(i, iou_i)` provided `iou_i` meets the threshold. -/
lemma find_best_match_first_argmax (pred : Span) (golds : List Span)
    (t : ℚ) (i : ℕ) (hi : i < golds.length)
    (hpos : 0 < span_iou pred golds[i])
    (ht : t ≤ span_iou pred golds[i])
    (hub : ∀ g ∈ golds, span_iou pred g ≤ span_iou pred golds[i])
    (hfst : ∀ j : ℕ, (hj : j < golds.length) → j < i →
      span_iou pred golds[j] < span_iou pred golds[i]) :
    find_best_match pred golds t = ((i : ℤ), span_iou pred golds[i]) := by
  simp only [find_best_match]
  rcases find_best_aux_cases pred golds 0 (-1, 0) with
    ⟨hr, hle⟩ | ⟨j, hj, hr, hlt, hub', hfst'⟩
  · exact absurd (hle golds[i] (List.getElem_mem hi)) (not_le.mpr hpos)
  · have hij : j = i := by
      rcases Nat.lt_trichotomy j i with hji | hji | hji
      · exact absurd (hub' golds[i] (List.getElem_mem hi))
          (not_le.mpr (hfst j hj hji))
      · exact hji
      · exact absurd (hub golds[j] (List.getElem_mem hj))
          (not_le.mpr (hfst' i hi hji))
    subst hij
    rw [hr]
    rw [if_pos ht]
    simp

/-! ## C5 — `find_best_match` specification -/

/-- C5: `find_best_match` returns `(-1, 0.0)` when the maximum IoU over
the gold list falls short of the threshold (or when every IoU is `0`, the
strict `>` tracking never moving off the `(-1, 0.0)` seed), and otherwise
returns the maximum IoU with the first index attaining it — every earlier
index scoring strictly lower — for all predictions, gold lists and
thresholds. -/
theorem find_best_match_spec (pred : Span) (golds : List Span) (t : ℚ) :
    ((golds.map (span_iou pred)).foldr max 0 < t →
      find_best_match pred golds t = (-1, 0))
    ∧ (t ≤ (golds.map (span_iou pred)).foldr max 0 →
        0 < (golds.map (span_iou pred)).foldr max 0 →
        ∃ i : ℕ, ∃ hi : i < golds.length,
          find_best_match pred golds t
              = ((i : ℤ), (golds.map (span_iou pred)).foldr max 0)
          ∧ span_iou pred golds[i] = (golds.map (span_iou pred)).foldr max 0
          ∧ ∀ j : ℕ, (hj : j < golds.length) → j < i →
              span_iou pred golds[j]
                < (golds.map (span_iou pred)).foldr max 0)
    ∧ ((golds.map (span_iou pred)).foldr max 0 = 0 →
        find_best_match pred golds t = (-1, 0)) := by
  rcases find_best_aux_cases pred golds 0 (-1, 0) with
    ⟨hr, hle⟩ | ⟨j, hj, hr, hlt, hub, hfst⟩
  · have hm : (golds.map (span_iou pred)).foldr max 0 = 0 := by
      apply le_antisymm
      · apply foldr_max_le _ _ le_rfl
        intro y hy
        obtain ⟨g, hg, rfl⟩ := List.mem_map.mp hy
        simpa using hle g hg
      · exact foldr_max_nonneg _
    refine ⟨?_, ?_, ?_⟩
    · intro _
      simp only [find_best_match]
      rw [hr]
      split_ifs <;> rfl
    · intro _ h0
      rw [hm] at h0
      exact absurd h0 (lt_irrefl 0)
    · intro _
      simp only [find_best_match]
      rw [hr]
      split_ifs <;> rfl
  · have h0j : (0 : ℚ) < span_iou pred golds[j] := by simpa using hlt
    have hm : (golds.map (span_iou pred)).foldr max 0
        = span_iou pred golds[j] := by
      apply foldr_max_eq_of
      · exact List.mem_map_of_mem _ (List.getElem_mem hj)
      · exact le_of_lt h0j
      · intro y hy
        obtain ⟨g, hg, rfl⟩ := List.mem_map.mp hy
        exact hub g hg
    refine ⟨?_, ?_, ?_⟩
    · intro hlt'
      rw [hm] at hlt'
      simp only [find_best_match]
      rw [hr, if_neg (not_le.mpr hlt')]
    · intro ht _
      rw [hm] at ht
      refine ⟨j, hj, ?_, hm.symm, ?_⟩
      · simp only [find_best_match]
        rw [hr, if_pos ht, hm]
        simp
      · intro j' hj' hlt1
        rw [hm]
        exact hfst j' hj' hlt1
    · intro h0
      rw [hm] at h0
      exact absurd h0j (by rw [h0]; exact lt_irrefl 0)

/-- Witness for C5: a prediction overlapping no gold span, where the
maximum IoU `0` falls short of the threshold `1/2` and the function
returns `(-1, 0.0)`. -/
theorem find_best_match_spec_witness :
    (([⟨"b", 6, 10⟩].map (span_iou ⟨"a", 0, 4⟩)).foldr max 0 < 1/2)
    ∧ find_best_match ⟨"a", 0, 4⟩ [⟨"b", 6, 10⟩] (1/2) = (-1, 0) :=
  ⟨by norm_num [span_iou],
    (find_best_match_spec ⟨"a", 0, 4⟩ [⟨"b", 6, 10⟩] (1/2)).1
      (by norm_num [span_iou])⟩

/-! ## C1 — the partial-match search does not skip consumed indices

The code computes the best IoU over the *full* gold list (consumed
indices included) and only then rejects the result if that one index is
already consumed; it does not fall back to the best still-unconsumed
span. -/

/-- C1 (counterexample): predictions `[A(0,10), B(1,11)]` against gold
`[A(0,10), C(5,15)]` with threshold `2/5`. `A` is consumed by an exact
match; `B`'s IoU with the unconsumed `C` is `3/7 ≥ 2/5`, yet no partial
match is recorded (so `C` stays a false negative and no boundary-error
entry exists), because `B`'s globally best gold span is the consumed
`A`. -/
theorem evaluate_spans_partial_cex :
    (2/5 : ℚ) ≤ span_iou ⟨"B", 1, 11⟩ ⟨"C", 5, 15⟩
    ∧ (evaluate_spans [⟨"A", 0, 10⟩, ⟨"B", 1, 11⟩]
        [⟨"A", 0, 10⟩, ⟨"C", 5, 15⟩] false (2/5)).exact_matches = 1
    ∧ (evaluate_spans [⟨"A", 0, 10⟩, ⟨"B", 1, 11⟩]
        [⟨"A", 0, 10⟩, ⟨"C", 5, 15⟩] false (2/5)).partial_matches = 0
    ∧ (evaluate_spans [⟨"A", 0, 10⟩, ⟨"B", 1, 11⟩]
        [⟨"A", 0, 10⟩, ⟨"C", 5, 15⟩] false (2/5)).false_negatives = 1
    ∧ (evaluate_spans [⟨"A", 0, 10⟩, ⟨"B", 1, 11⟩]
        [⟨"A", 0, 10⟩, ⟨"C", 5, 15⟩] false (2/5)).boundary_errors
        = [] := by
  refine ⟨by norm_num [span_iou], ?_, ?_, ?_, ?_⟩ <;>
    norm_num [evaluate_spans, evalStep, find_exact_aux, find_best_match,
      find_best_aux, span_iou, boundary_distance]

/-- C1 (amended): for a prediction with no exact match processed with
`exact_match_only` false, let `i` be the first index attaining the
maximum IoU over the *full* gold list, with that maximum positive and at
least the threshold. If `i` is still unconsumed, the prediction is
counted as a partial match consuming `i` and recording
`{predicted, gold, distance, iou}`; if `i` is already consumed, the
prediction is not matched at all — even when some other unconsumed gold
span's IoU reaches the threshold. -/
theorem evalStep_partial_match_amended
    (golds : List Span) (t : ℚ) (s : EvalState) (pred : Span)
    (i : ℕ) (hi : i < golds.length)
    (hexact : find_exact_aux pred golds 0 s.matched_gold = none)
    (hpos : 0 < span_iou pred golds[i])
    (ht : t ≤ span_iou pred golds[i])
    (hub : ∀ g ∈ golds, span_iou pred g ≤ span_iou pred golds[i])
    (hfst : ∀ j : ℕ, (hj : j < golds.length) → j < i →
      span_iou pred golds[j] < span_iou pred golds[i]) :
    ((i : ℤ) ∉ s.matched_gold →
      evalStep golds false t s pred =
        { matched_gold := insert (i : ℤ) s.matched_gold
          exact_matches := s.exact_matches
          partial_matches := s.partial_matches + 1
          boundary_errors := s.boundary_errors
            ++ [⟨pred, golds[i], boundary_distance pred golds[i],
                  span_iou pred golds[i]⟩] })
    ∧ ((i : ℤ) ∈ s.matched_gold → evalStep golds false t s pred = s) := by
  have hbest := find_best_match_first_argmax pred golds t i hi hpos ht hub hfst
  have hgetD : golds.getD ((i : ℤ)).toNat default = golds[i] := by
    rw [Int.toNat_natCast]
    exact List.getD_eq_getElem golds default hi
  constructor
  · intro hnm
    simp only [evalStep, hexact, Bool.false_eq_true, if_false, hbest]
    rw [if_pos ⟨by omega, hnm⟩]
    rw [hgetD]
  · intro hm
    simp only [evalStep, hexact, Bool.false_eq_true, if_false, hbest]
    rw [if_neg]
    intro hcond
    exact hcond.2 hm

/-- Witness for C1 (amended): the consumed-argmax branch at the
counterexample's data — gold index `1` (span `C`) is unconsumed with IoU
`3/7 ≥ 2/5`, yet the step is a no-op because the argmax index `0` is
consumed. -/
theorem evalStep_partial_match_amended_witness :
    (2/5 : ℚ) ≤ span_iou ⟨"B", 1, 11⟩ ⟨"C", 5, 15⟩
    ∧ ((1 : ℤ) ∉ ({0} : Finset ℤ))
    ∧ evalStep [⟨"A", 0, 10⟩, ⟨"C", 5, 15⟩] false (2/5)
        ⟨{0}, 1, 0, []⟩ ⟨"B", 1, 11⟩ = ⟨{0}, 1, 0, []⟩ :=
  ⟨by norm_num [span_iou], by decide,
    (evalStep_partial_match_amended [⟨"A", 0, 10⟩, ⟨"C", 5, 15⟩] (2/5)
      ⟨{0}, 1, 0, []⟩ ⟨"B", 1, 11⟩ 0 (by norm_num)
      (by norm_num [find_exact_aux])
      (by norm_num [span_iou])
      (by norm_num [span_iou])
      (by
        intro g hg
        rcases List.mem_cons.mp hg with rfl | hg
        · norm_num
        · rcases List.mem_cons.mp hg with rfl | hg
          · norm_num [span_iou]
          · simp at hg)
      (by intro j hj hlt; exact absurd hlt (Nat.not_lt_zero j))).2
      (by decide)⟩

/-! ## Loop invariant of the prediction loop -/

/-- A successful exact-match scan yields an unconsumed index in
`[k, k + length)`. -/
lemma find_exact_aux_some (pred : Span) :
    ∀ (gs : List Span) (k : ℤ) (matched : Finset ℤ) (idx : ℤ),
      find_exact_aux pred gs k matched = some idx →
      idx ∉ matched ∧ k ≤ idx ∧ idx < k + gs.length := by
  intro gs
  induction gs with
  | nil =>
      intro k m idx h
      simp [find_exact_aux] at h
  | cons g rest ih =>
      intro k m idx h
      simp only [find_exact_aux] at h
      split_ifs at h with h1 h2
      · obtain ⟨hnm, hk, hlt⟩ := ih (k + 1) m idx h
        refine ⟨hnm, by omega, ?_⟩
        simp only [List.length_cons]
        push_cast at hlt ⊢
        omega
      · obtain rfl := Option.some.inj h
        refine ⟨h1, le_refl _, ?_⟩
        simp only [List.length_cons]
        push_cast
        omega
      · obtain ⟨hnm, hk, hlt⟩ := ih (k + 1) m idx h
        refine ⟨hnm, by omega, ?_⟩
        simp only [List.length_cons]
        push_cast at hlt ⊢
        omega

/-- One step of the prediction loop preserves the loop invariant. -/
lemma evalStep_inv (golds : List Span) (eo : Bool) (t : ℚ)
    (s : EvalState) (pred : Span) (n : ℕ) (h : EvalInv golds n s) :
    EvalInv golds (n + 1) (evalStep golds eo t s pred) := by
  obtain ⟨hsum, hrange, hcount⟩ := h
  simp only [evalStep]
  split
  · rename_i gold_idx hfe
    obtain ⟨hnm, h0, hlt⟩ :=
      find_exact_aux_some pred golds 0 s.matched_gold gold_idx hfe
    refine ⟨?_, ?_, ?_⟩
    · show s.exact_matches + 1 + s.partial_matches
        = (insert gold_idx s.matched_gold).card
      rw [Finset.card_insert_of_not_mem hnm]
      omega
    · intro i hi
      rcases Finset.mem_insert.mp hi with rfl | hi
      · exact ⟨h0, by simpa using hlt⟩
      · exact hrange i hi
    · show s.exact_matches + 1 + s.partial_matches ≤ n + 1
      omega
  · rename_i hfe
    split_ifs with heo hc
    · exact ⟨hsum, hrange, by omega⟩
    · obtain ⟨hne2, hnm⟩ := hc
      rcases find_best_match_range pred golds t with hr | ⟨hr0, hrlt⟩
      · exact absurd hr hne2
      · refine ⟨?_, ?_, ?_⟩
        · show s.exact_matches + (s.partial_matches + 1)
            = (insert (find_best_match pred golds t).1 s.matched_gold).card
          rw [Finset.card_insert_of_not_mem hnm]
          omega
        · intro i hi
          rcases Finset.mem_insert.mp hi with rfl | hi
          · exact ⟨hr0, hrlt⟩
          · exact hrange i hi
        · show s.exact_matches + (s.partial_matches + 1) ≤ n + 1
          omega
    · exact ⟨hsum, hrange, by omega⟩

/-- The loop invariant holds after folding any prediction list. -/
lemma foldl_evalStep_inv (golds : List Span) (eo : Bool) (t : ℚ) :
    ∀ (preds : List Span) (s : EvalState) (n : ℕ),
      EvalInv golds n s →
      EvalInv golds (n + preds.length)
        (preds.foldl (evalStep golds eo t) s) := by
  intro preds
  induction preds with
  | nil => intro s n h; simpa using h
  | cons p rest ih =>
      intro s n h
      have h2 := ih (evalStep golds eo t s p) (n + 1)
        (evalStep_inv golds eo t s p n h)
      simp only [List.foldl_cons, List.length_cons]
      have harith : n + 1 + rest.length = n + (rest.length + 1) := by omega
      rw [harith] at h2
      exact h2

/-- The guarded harmonic mean of two values in `[0, 1]` lies in
`[0, 1]`. -/
lemma f1_bounds (p r : ℚ) (hp0 : 0 ≤ p) (hp1 : p ≤ 1) (hr0 : 0 ≤ r)
    (hr1 : r ≤ 1) :
    0 ≤ (if 0 < p + r then 2 * (p * r) / (p + r) else 0)
    ∧ (if 0 < p + r then 2 * (p * r) / (p + r) else 0) ≤ 1 := by
  split_ifs with h
  · constructor
    · exact div_nonneg
        (mul_nonneg (by norm_num) (mul_nonneg hp0 hr0)) (le_of_lt h)
    · rw [div_le_one h]
      nlinarith
  · norm_num

/-! ## C10 — count identities and rate ranges -/

/-- C10: for a non-empty gold list, the returned record satisfies
`TP = exact + partial`, `TP + FP = |predictions|`, `TP + FN = |gold|`,
`TP ≤ |gold|`, non-negative `FP`/`FN`, and all five rates lie in
`[0, 1]`. -/
theorem evaluate_spans_count_identities
    (predictions gold_standard : List Span) (eo : Bool) (t : ℚ)
    (hg : gold_standard ≠ []) :
    (evaluate_spans predictions gold_standard eo t).true_positives
        = (evaluate_spans predictions gold_standard eo t).exact_matches
          + (evaluate_spans predictions gold_standard eo t).partial_matches
    ∧ ((evaluate_spans predictions gold_standard eo t).true_positives : ℤ)
          + (evaluate_spans predictions gold_standard eo t).false_positives
        = (predictions.length : ℤ)
    ∧ ((evaluate_spans predictions gold_standard eo t).true_positives : ℤ)
          + (evaluate_spans predictions gold_standard eo t).false_negatives
        = (gold_standard.length : ℤ)
    ∧ (evaluate_spans predictions gold_standard eo t).true_positives
        ≤ gold_standard.length
    ∧ 0 ≤ (evaluate_spans predictions gold_standard eo t).false_positives
    ∧ 0 ≤ (evaluate_spans predictions gold_standard eo t).false_negatives
    ∧ 0 ≤ (evaluate_spans predictions gold_standard eo t).precision
    ∧ (evaluate_spans predictions gold_standard eo t).precision ≤ 1
    ∧ 0 ≤ (evaluate_spans predictions gold_standard eo t).«recall»
    ∧ (evaluate_spans predictions gold_standard eo t).«recall» ≤ 1
    ∧ 0 ≤ (evaluate_spans predictions gold_standard eo t).f1
    ∧ (evaluate_spans predictions gold_standard eo t).f1 ≤ 1
    ∧ 0 ≤ (evaluate_spans predictions gold_standard eo t).accuracy_exact
    ∧ (evaluate_spans predictions gold_standard eo t).accuracy_exact ≤ 1
    ∧ 0 ≤ EvalResult.accuracy_partial
        (evaluate_spans predictions gold_standard eo t)
    ∧ EvalResult.accuracy_partial
        (evaluate_spans predictions gold_standard eo t) ≤ 1 := by
  have hne : gold_standard.isEmpty = false := by
    cases gold_standard with
    | nil => exact absurd rfl hg
    | cons g gs => rfl
  have hinv0 : EvalInv gold_standard 0 ⟨∅, 0, 0, []⟩ := by
    refine ⟨by simp, by simp, by simp⟩
  have hinv := foldl_evalStep_inv gold_standard eo t predictions
    ⟨∅, 0, 0, []⟩ 0 hinv0
  obtain ⟨hsum, hrange, hcount⟩ := hinv
  simp only [zero_add] at hcount
  set s := predictions.foldl (evalStep gold_standard eo t) ⟨∅, 0, 0, []⟩
    with hs
  have hsub : s.matched_gold ⊆
      Finset.Ico (0 : ℤ) (gold_standard.length : ℤ) := by
    intro i hi
    obtain ⟨h1, h2⟩ := hrange i hi
    exact Finset.mem_Ico.mpr ⟨h1, h2⟩
  have hcard : s.matched_gold.card ≤ gold_standard.length := by
    have hle := Finset.card_le_card hsub
    rw [Int.card_Ico] at hle
    simpa using hle
  have hTPp : s.exact_matches + s.partial_matches ≤ predictions.length :=
    hcount
  have hTPg : s.exact_matches + s.partial_matches ≤ gold_standard.length :=
    hsum ▸ hcard
  simp only [evaluate_spans, hne, Bool.false_eq_true, if_false, ← hs]
  have hdenp : ((s.exact_matches + s.partial_matches : ℕ) : ℚ)
      + (((predictions.length : ℤ)
          - (s.exact_matches + s.partial_matches : ℕ) : ℤ) : ℚ)
      = (predictions.length : ℚ) := by
    push_cast
    ring
  have hdeng : ((s.exact_matches + s.partial_matches : ℕ) : ℚ)
      + (((gold_standard.length : ℤ) - s.matched_gold.card : ℤ) : ℚ)
      = (gold_standard.length : ℚ) := by
    rw [hsum]
    push_cast
    ring
  rw [hdenp, hdeng]
  have hP0 : (0 : ℚ) ≤
      (if 0 < (predictions.length : ℚ) then
        ((s.exact_matches + s.partial_matches : ℕ) : ℚ)
          / (predictions.length : ℚ)
      else 0) := by
    split_ifs with h
    · exact div_nonneg (by positivity) (le_of_lt h)
    · exact le_rfl
  have hP1 :
      (if 0 < (predictions.length : ℚ) then
        ((s.exact_matches + s.partial_matches : ℕ) : ℚ)
          / (predictions.length : ℚ)
      else 0) ≤ 1 := by
    split_ifs with h
    · rw [div_le_one h]
      exact_mod_cast hTPp
    · norm_num
  have hR0 : (0 : ℚ) ≤
      (if 0 < (gold_standard.length : ℚ) then
        ((s.exact_matches + s.partial_matches : ℕ) : ℚ)
          / (gold_standard.length : ℚ)
      else 0) := by
    split_ifs with h
    · exact div_nonneg (by positivity) (le_of_lt h)
    · exact le_rfl
  have hR1 :
      (if 0 < (gold_standard.length : ℚ) then
        ((s.exact_matches + s.partial_matches : ℕ) : ℚ)
          / (gold_standard.length : ℚ)
      else 0) ≤ 1 := by
    split_ifs with h
    · rw [div_le_one h]
      exact_mod_cast hTPg
    · norm_num
  have hLg0 : (0 : ℚ) < (gold_standard.length : ℚ) := by
    have : 0 < gold_standard.length := List.length_pos.mpr hg
    exact_mod_cast this
  refine ⟨trivial, by push_cast; ring, ?_, hTPg, by omega,
    by omega, hP0, hP1, hR0, hR1, ?_, ?_, ?_, ?_, ?_, ?_⟩
  · rw [hsum]
    ring
  · exact (f1_bounds _ _ hP0 hP1 hR0 hR1).1
  · exact (f1_bounds _ _ hP0 hP1 hR0 hR1).2
  · exact div_nonneg (by positivity) (le_of_lt hLg0)
  · rw [div_le_one hLg0]
    have hee : s.exact_matches ≤ gold_standard.length := by omega
    exact_mod_cast hee
  · exact div_nonneg (by positivity) (le_of_lt hLg0)
  · rw [div_le_one hLg0]
    exact_mod_cast hTPg

/-- Witness for C10: the identities applied at a one-prediction,
one-gold-span input, discharging the non-emptiness hypothesis. -/
theorem evaluate_spans_count_identities_witness :
    ([(⟨"A", 0, 1⟩ : Span)] ≠ ([] : List Span))
    ∧ 0 ≤ (evaluate_spans [⟨"A", 0, 1⟩] [⟨"A", 0, 1⟩]
        false (1/2)).precision :=
  ⟨by decide,
    (evaluate_spans_count_identities [⟨"A", 0, 1⟩] [⟨"A", 0, 1⟩]
      false (1/2) (by decide)).2.2.2.2.2.2.1⟩

end Rulechef
